import Mathlib

/-!
Verification of the detection-reconciliation engine and annotation renderer
of the PCB inspection application (`src/windownew.py`).

The pure core is `compare_pcbs` (lines 80-100 of the source): it takes the
reference detections, test detections and the test image, classifies each
test detection by label membership in the reference labels, collects the
reference labels absent from the test labels, and draws boxes, label texts
and a "Missing:" list onto a copy of the test image.

The session guard is `open_test_file` (lines 183-186): comparison is refused
with a warning, and no comparison performed, while `reference_detections`
is still `None` (set at line 66, replaced by `load_reference` line 163).

Detections are `(label, box)` pairs as built by `get_detections`
(lines 69-78).  Images and the cv2 drawing primitives (`cv2.rectangle`,
`cv2.putText`) are external to the repository; they are modelled below as
pure per-pixel updates that write only into the target buffer and never
change the buffer shape, which is the documented cv2 in-place semantics.
-/

namespace PCB

abbrev Label := String

/-- An axis-aligned bounding box `(x1, y1, x2, y2)` as produced from
`box.xyxy[0]` at line 76 of the source (integer coordinates). -/
structure Box where
  x1 : Int
  y1 : Int
  x2 : Int
  y2 : Int
deriving Repr, DecidableEq

/-- One detection, a `(label, box)` pair as appended at line 77. -/
abbrev Detection := Label × Box

/-- Classification status of a test detection (line 89 of the source:
green when the label is among the reference labels, red otherwise). -/
inductive Status where
  | CORRECT
  | EXTRA
deriving Repr, DecidableEq

/-- One classified test detection of the comparison result. -/
structure ClassifiedEntry where
  label : Label
  box : Box
  status : Status
deriving Repr, DecidableEq

/-- One missing reference label of the comparison result. -/
structure MissingEntry where
  label : Label
deriving Repr, DecidableEq

/-- The classified diff produced by one comparison call. -/
structure ComparisonResult where
  entries : List ClassifiedEntry
  missing : List MissingEntry
deriving Repr, DecidableEq

/-- Colour used for a test detection whose label occurs in the reference
labels (line 89, `(0, 255, 0)`, BGR green). -/
def correct_color : Nat × Nat × Nat := (0, 255, 0)

/-- Colour used for a test detection whose label does not occur in the
reference labels (line 89, `(0, 0, 255)`, BGR red). -/
def extra_color : Nat × Nat × Nat := (0, 0, 255)

/-- The status assigned at line 89: membership of the label in the list of
reference labels, Python `label in ref_labels`. -/
def status_of (ref_labels : List Label) (label : Label) : Status :=
  if label ∈ ref_labels then Status.CORRECT else Status.EXTRA

/-- Line 95 of the source:
`missing = [lbl for lbl in ref_labels if lbl not in test_labels]`. -/
def missing_labels (ref_labels test_labels : List Label) : List Label :=
  ref_labels.filter (fun lbl => !decide (lbl ∈ test_labels))

/-- The classified diff computed by `compare_pcbs` (lines 80-100): one
`ClassifiedEntry` per test detection, in test order, with the status of
line 89, and one `MissingEntry` per element of the line-95 list
comprehension, in reference order. -/
def compare_pcbs (ref_detections test_detections : List Detection) :
    ComparisonResult :=
  let ref_labels := ref_detections.map Prod.fst
  let test_labels := test_detections.map Prod.fst
  { entries := test_detections.map (fun d =>
      { label := d.1, box := d.2, status := status_of ref_labels d.1 }),
    missing := (missing_labels ref_labels test_labels).map MissingEntry.mk }

/-! ### Images and drawing commands -/

/-- A pixel buffer: shape `(height, width, channels)` and, for every
`(row, col, channel)` triple, a sample value.  Models the numpy `uint8`
array handed to `compare_pcbs` as `test_img`. -/
structure Image where
  height : Nat
  width : Nat
  channels : Nat
  pix : Nat → Nat → Nat → Nat

/-- `test_img.copy()` at line 82: a fresh buffer with the same shape and
the same pixel values. -/
def Image.copy (img : Image) : Image :=
  { height := img.height, width := img.width, channels := img.channels,
    pix := fun r c ch => img.pix r c ch }

/-- Two images of equal shape and pointwise-equal pixel values. -/
def Image.pixEq (a b : Image) : Prop :=
  a.height = b.height ∧ a.width = b.width ∧ a.channels = b.channels ∧
    ∀ r c ch, a.pix r c ch = b.pix r c ch

/-- One cv2 drawing call issued by `compare_pcbs`: either the rectangle of
line 90 or a text call (line 91 or line 97).  The `font` field holds
`cv2.FONT_HERSHEY_SIMPLEX = 0`; the fractional font scales 0.6 and 0.8 are
carried as exact rationals. -/
inductive DrawCmd where
  | rect (x1 y1 x2 y2 : Int) (color : Nat × Nat × Nat) (thickness : Nat)
  | text (s : String) (x y : Int) (font : Nat) (scale : Rat)
      (color : Nat × Nat × Nat) (thickness : Nat)
deriving Repr, DecidableEq

/-- The colour argument of a drawing call. -/
def DrawCmd.color : DrawCmd → Nat × Nat × Nat
  | .rect _ _ _ _ c _ => c
  | .text _ _ _ _ _ c _ => c

/-- The drawing calls of the first loop of `compare_pcbs` (lines 87-92):
for each test detection, in order, one rectangle over its box and one text
with its label at `(x1, y1 - 5)`, both in the colour chosen at line 89. -/
def test_cmds (ref_labels : List Label) : List Detection → List DrawCmd
  | [] => []
  | (label, box) :: rest =>
      let color := if label ∈ ref_labels then correct_color else extra_color
      DrawCmd.rect box.x1 box.y1 box.x2 box.y2 color 2 ::
        DrawCmd.text label box.x1 (box.y1 - 5) 0 (6 / 10 : Rat) color 2 ::
          test_cmds ref_labels rest

/-- The drawing calls of the second loop of `compare_pcbs` (lines 96-98):
for the `i`-th missing label `lbl`, a text `"Missing: " ++ lbl` at
`(20, 40 + 30 * i)` in red `(0, 0, 255)`.  The parameter `i` is the
running `enumerate` index. -/
def missing_cmds (i : Nat) : List Label → List DrawCmd
  | [] => []
  | lbl :: rest =>
      DrawCmd.text ("Missing: " ++ lbl) 20 (40 + 30 * (i : Int)) 0
          (8 / 10 : Rat) (0, 0, 255) 2 ::
        missing_cmds (i + 1) rest

/-- The full ordered sequence of drawing calls issued by one
`compare_pcbs` invocation: the per-detection loop, then the missing list. -/
def render_cmds (ref_detections test_detections : List Detection) :
    List DrawCmd :=
  let ref_labels := ref_detections.map Prod.fst
  let test_labels := test_detections.map Prod.fst
  test_cmds ref_labels test_detections ++
    missing_cmds 0 (missing_labels ref_labels test_labels)

/-- The set of pixels a drawing call touches.  Models the footprint of the
cv2 rasterizer: the rectangle call covers a border band of the box, the
text call a band below-left of its origin.  The exact footprint shape is
external to the repository (cv2); only that drawing writes into the target
buffer and preserves its shape matters to the properties proved here. -/
def DrawCmd.covers : DrawCmd → Nat → Nat → Bool
  | .rect x1 y1 x2 y2 _ t, r, c =>
      decide (x1 ≤ (c : Int) ∧ (c : Int) ≤ x2 ∧
          y1 ≤ (r : Int) ∧ (r : Int) ≤ y2) &&
        (decide ((c : Int) < x1 + (t : Int)) ||
          decide (x2 - (t : Int) < (c : Int)) ||
          decide ((r : Int) < y1 + (t : Int)) ||
          decide (y2 - (t : Int) < (r : Int)))
  | .text _ x y _ _ _ _, r, c =>
      decide (x ≤ (c : Int) ∧ y - 20 ≤ (r : Int) ∧ (r : Int) ≤ y)

/-- The channel sample of a BGR colour triple. -/
def colorChannel (color : Nat × Nat × Nat) (ch : Nat) : Nat :=
  if ch = 0 then color.1 else if ch = 1 then color.2.1 else color.2.2

/-- In-place effect of one cv2 drawing call on its target buffer: inside
the buffer, every covered pixel takes the call's colour; every other pixel
and the buffer shape are unchanged. -/
def applyCmd (img : Image) (cmd : DrawCmd) : Image :=
  { img with pix := fun r c ch =>
      if r < img.height ∧ c < img.width ∧ cmd.covers r c = true then
        colorChannel cmd.color ch
      else img.pix r c ch }

/-- The annotated image returned by `compare_pcbs`: every drawing call
applied, in order, to a copy of the test image (line 82, line 100). -/
def render (img : Image) (ref_detections test_detections : List Detection) :
    Image :=
  (render_cmds ref_detections test_detections).foldl applyCmd img.copy

/-! ### Buffer-level model of `compare_pcbs`

`annotated = test_img.copy()` at line 82 allocates a fresh numpy buffer;
every subsequent `cv2.rectangle`/`cv2.putText` call mutates that buffer in
place; the input `test_img` buffer is never written.  The heap below makes
the aliasing explicit: buffers are numbered, `alloc` hands out a fresh
number, and each drawing call rewrites exactly one numbered buffer. -/

/-- A store of numbered image buffers; numbers at or above `next` are
unallocated. -/
structure Heap where
  next : Nat
  mem : Nat → Option Image

/-- Allocate a fresh buffer holding `img`; returns its number. -/
def Heap.alloc (h : Heap) (img : Image) : Nat × Heap :=
  (h.next,
    { next := h.next + 1,
      mem := fun i => if i = h.next then some img else h.mem i })

/-- Overwrite buffer `i` with `img`. -/
def Heap.write (h : Heap) (i : Nat) (img : Image) : Heap :=
  { h with mem := fun j => if j = i then some img else h.mem j }

/-- One cv2 drawing call executed in place on buffer `annId`. -/
def draw_step (annId : Nat) (h : Heap) (cmd : DrawCmd) : Heap :=
  match h.mem annId with
  | some im => h.write annId (applyCmd im cmd)
  | none => h

/-- `compare_pcbs` at the buffer level: reads the test image from its
buffer, allocates a fresh buffer holding a copy of it (line 82), executes
every drawing call in place on that fresh buffer (lines 90-98), and
returns the fresh buffer's number (line 100). -/
def compare_pcbs_buffers (ref_detections test_detections : List Detection)
    (testId : Nat) (h : Heap) : Nat × Heap :=
  match h.mem testId with
  | none => (testId, h)
  | some testImg =>
      let allocated := h.alloc testImg.copy
      (allocated.1,
        (render_cmds ref_detections test_detections).foldl
          (draw_step allocated.1) allocated.2)

/-! ### Session state -/

/-- Error raised when comparison is requested with no active reference. -/
inductive CompareError where
  | NoReferenceError
deriving Repr, DecidableEq

/-- The session state relevant to comparison: the stored reference
detections, `self.reference_detections`, initialised to `None` at line 66
of the source. -/
structure SessionState where
  reference_detections : Option (List Detection)

/-- The state of a freshly constructed application (line 66). -/
def initial_state : SessionState := { reference_detections := none }

/-- `load_reference` (line 163): replaces the stored reference detections. -/
def set_reference (s : SessionState) (ds : List Detection) : SessionState :=
  { s with reference_detections := some ds }

/-- The comparison path of `open_test_file` (lines 183-200) with file I/O
and the external detector abstracted into the already obtained test
detections: when `reference_detections is None` the call warns and returns
without comparing (lines 184-186); otherwise it runs `compare_pcbs`
against the stored reference (line 200). -/
def open_test_file (s : SessionState) (test_detections : List Detection) :
    Except CompareError ComparisonResult :=
  match s.reference_detections with
  | none => Except.error CompareError.NoReferenceError
  | some ref => Except.ok (compare_pcbs ref test_detections)

/-! ### Concrete sample inputs used by witnesses and counterexamples -/

/-- A throwaway box; the engine never reads box geometry for matching. -/
def box0 : Box := { x1 := 0, y1 := 0, x2 := 10, y2 := 10 }

/-- The reference detections of the spec's first scenario:
`[("R1",…), ("C1",…), ("C1",…)]`. -/
def refScenario : List Detection := [("R1", box0), ("C1", box0), ("C1", box0)]

/-- The test detections of the spec's first scenario:
`[("R1",…), ("C2",…)]`. -/
def testScenario : List Detection := [("R1", box0), ("C2", box0)]

/-- A 1x1 single-channel all-zero image. -/
def img0 : Image := { height := 1, width := 1, channels := 1, pix := fun _ _ _ => 0 }

/-- A 1x1 single-channel all-zero image with a syntactically different but
pointwise-equal pixel function than `img0`. -/
def img0b : Image :=
  { height := 1, width := 1, channels := 1, pix := fun r _ _ => r * 0 }

/-- A heap with exactly one allocated buffer, number `0`, holding `img0`. -/
def heap0 : Heap :=
  { next := 1, mem := fun i => if i = 0 then some img0 else none }

/-- Keep the first occurrence of each element, dropping later duplicates. -/
def first_occurrences (seen : List Label) : List Label → List Label
  | [] => []
  | l :: rest =>
      if l ∈ seen then first_occurrences seen rest
      else l :: first_occurrences (l :: seen) rest

/-- Modelled from the spec: the `missing` sequence as §4.1 steps 3-4
describe it — one entry per DISTINCT reference label absent from the test
labels, in first-occurrence order of the reference.  Stated only to be
compared against `missing_labels`, which embeds the line-95 comprehension
of the source; the source does not deduplicate. -/
def missing_spec (ref_labels test_labels : List Label) : List Label :=
  first_occurrences [] (missing_labels ref_labels test_labels)

/-! ### C1: missing-entry deduplication -/

/-- C1, counterexample.  On the spec's own scenario — reference
`[("R1",…), ("C1",…), ("C1",…)]`, test `[("R1",…), ("C2",…)]` — the code
produces TWO MissingEntries for `C1`, one per reference occurrence, not
the single deduplicated entry the claim states. -/
theorem missing_dedup_counterexample :
    (compare_pcbs refScenario testScenario).missing =
        [MissingEntry.mk "C1", MissingEntry.mk "C1"] ∧
      (compare_pcbs refScenario testScenario).missing ≠ [MissingEntry.mk "C1"] := by
  decide

/-- C1, amended.  For every label absent from the test labels, the number
of MissingEntries the comparison produces for it equals the number of its
occurrences among the reference labels (`k` entries for `k` occurrences,
not one): line 95 filters the reference label list without
deduplicating. -/
theorem missing_count_per_occurrence
    (ref_detections test_detections : List Detection) (l : Label)
    (h : l ∉ test_detections.map Prod.fst) :
    ((compare_pcbs ref_detections test_detections).missing).count
        (MissingEntry.mk l) =
      (ref_detections.map Prod.fst).count l := by
  simp only [compare_pcbs, missing_labels]
  rw [List.count_map_of_injective _ MissingEntry.mk
    (fun a b hab => by injection hab) l]
  rw [List.count_filter (by simp [h])]

/-- C1, witness for the amended theorem: in the scenario, label `C1`
occurs twice in the reference and is absent from the test, and exactly two
MissingEntries for it are produced. -/
theorem missing_count_per_occurrence_witness :
    ("C1" ∉ testScenario.map Prod.fst) ∧
      ((compare_pcbs refScenario testScenario).missing).count
          (MissingEntry.mk "C1") =
        (refScenario.map Prod.fst).count "C1" :=
  ⟨by decide, missing_count_per_occurrence refScenario testScenario "C1" (by decide)⟩

/-! ### C2: membership classification -/

/-- C2: every entry of the comparison result carries status CORRECT
exactly when its label occurs among the reference labels, and EXTRA
otherwise — a pure membership test, so several test detections sharing one
reference label are all CORRECT. -/
theorem entry_status_by_membership
    (ref_detections test_detections : List Detection) :
    ∀ e ∈ (compare_pcbs ref_detections test_detections).entries,
      e.status = (if e.label ∈ ref_detections.map Prod.fst
        then Status.CORRECT else Status.EXTRA) := by
  intro e he
  simp only [compare_pcbs, List.mem_map] at he
  obtain ⟨d, _, rfl⟩ := he
  rfl

/-- C2, witness: in the scenario both test detections are classified, the
shared label `R1` as CORRECT. -/
theorem entry_status_by_membership_witness :
    ((⟨"R1", box0, Status.CORRECT⟩ : ClassifiedEntry) ∈
        (compare_pcbs refScenario testScenario).entries) ∧
      (⟨"R1", box0, Status.CORRECT⟩ : ClassifiedEntry).status =
        (if (⟨"R1", box0, Status.CORRECT⟩ : ClassifiedEntry).label ∈
            refScenario.map Prod.fst
          then Status.CORRECT else Status.EXTRA) :=
  ⟨by decide, entry_status_by_membership refScenario testScenario _ (by decide)⟩

/-! ### C3: completeness and disjoint classification -/

/-- C3: the comparison produces exactly one classified entry per test
detection — `|entries| = |test|` — and each entry has exactly one status
(CORRECT exactly when not EXTRA). -/
theorem entries_complete_and_disjoint
    (ref_detections test_detections : List Detection) :
    (compare_pcbs ref_detections test_detections).entries.length =
        test_detections.length ∧
      ∀ e ∈ (compare_pcbs ref_detections test_detections).entries,
        (e.status = Status.CORRECT ↔ ¬ e.status = Status.EXTRA) := by
  refine ⟨by simp [compare_pcbs], ?_⟩
  intro e _
  cases h : e.status <;> simp

/-- C3, witness: on the scenario, two entries for two test detections,
each with a single status. -/
theorem entries_complete_and_disjoint_witness :
    (compare_pcbs refScenario testScenario).entries.length =
        testScenario.length ∧
      ((⟨"C2", box0, Status.EXTRA⟩ : ClassifiedEntry) ∈
          (compare_pcbs refScenario testScenario).entries ∧
        ((⟨"C2", box0, Status.EXTRA⟩ : ClassifiedEntry).status = Status.CORRECT ↔
          ¬ (⟨"C2", box0, Status.EXTRA⟩ : ClassifiedEntry).status = Status.EXTRA)) :=
  ⟨(entries_complete_and_disjoint refScenario testScenario).1,
    by decide,
    (entries_complete_and_disjoint refScenario testScenario).2 _ (by decide)⟩

/-! ### C5: ordering of entries and missing -/

/-- C5, counterexample.  For reference labels `A, B, A` (all absent from
an empty test set) the code's missing sequence is `A, B, A` — one entry
per occurrence, with the duplicate of `A` AFTER `B` — not the
first-occurrence-ordered distinct-label list `A, B` that the claim's
wording (`missing_spec`) describes. -/
theorem missing_order_counterexample :
    (compare_pcbs [("A", box0), ("B", box0), ("A", box0)] []).missing =
        [MissingEntry.mk "A", MissingEntry.mk "B", MissingEntry.mk "A"] ∧
      (compare_pcbs [("A", box0), ("B", box0), ("A", box0)] []).missing ≠
        (missing_spec ["A", "B", "A"] []).map MissingEntry.mk := by
  decide

/-- C5, amended: the entries sequence lists the test detections exactly in
test input order (projecting each entry to its `(label, box)` pair
recovers the test list), and the missing sequence is a subsequence of the
reference label sequence — reference occurrence order, with one entry per
occurrence of an absent label rather than one per distinct label. -/
theorem comparison_order_preserved
    (ref_detections test_detections : List Detection) :
    (compare_pcbs ref_detections test_detections).entries.map
        (fun e => ((e.label, e.box) : Detection)) = test_detections ∧
      List.Sublist (compare_pcbs ref_detections test_detections).missing
        ((ref_detections.map Prod.fst).map MissingEntry.mk) := by
  constructor
  · simp [compare_pcbs, Function.comp_def, Prod.mk.eta]
  · simp only [compare_pcbs, missing_labels]
    exact (List.filter_sublist _).map _

/-! ### C6: empty reference and empty-empty behaviour -/

/-- C6: with an empty reference every test detection is classified EXTRA
and the missing sequence is empty; with both sets empty the result is the
valid empty ComparisonResult; in particular the spec's second scenario
(reference `[]`, test `[("R1",…)]`) yields exactly `[EXTRA R1]`. -/
theorem empty_reference_behaviour (test_detections : List Detection) :
    (compare_pcbs [] test_detections).missing = [] ∧
      (∀ e ∈ (compare_pcbs [] test_detections).entries,
        e.status = Status.EXTRA) ∧
      compare_pcbs [] [] = { entries := [], missing := [] } ∧
      compare_pcbs [] [("R1", box0)] =
        { entries := [⟨"R1", box0, Status.EXTRA⟩], missing := [] } := by
  refine ⟨rfl, ?_, rfl, rfl⟩
  intro e he
  simp only [compare_pcbs, List.mem_map] at he
  obtain ⟨d, _, rfl⟩ := he
  simp [status_of]

/-- C6, witness: with empty reference and the scenario's test set, the
concrete test detection `R1` is classified EXTRA. -/
theorem empty_reference_behaviour_witness :
    (compare_pcbs [] [("R1", box0)]).missing = [] ∧
      ((⟨"R1", box0, Status.EXTRA⟩ : ClassifiedEntry) ∈
          (compare_pcbs [] [("R1", box0)]).entries ∧
        (⟨"R1", box0, Status.EXTRA⟩ : ClassifiedEntry).status = Status.EXTRA) :=
  ⟨(empty_reference_behaviour [("R1", box0)]).1,
    by decide,
    (empty_reference_behaviour [("R1", box0)]).2.1 _ (by decide)⟩

/-! ### C4: comparison with no reference fails -/

/-- C4: whenever no reference snapshot is stored, the comparison path
fails with `NoReferenceError` and produces no ComparisonResult at all — in
particular it is never the result of comparing against an empty
reference. -/
theorem no_reference_fails (s : SessionState) (test_detections : List Detection)
    (h : s.reference_detections = none) :
    open_test_file s test_detections =
        Except.error CompareError.NoReferenceError ∧
      ∀ r : ComparisonResult,
        open_test_file s test_detections ≠ Except.ok r := by
  refine ⟨by simp [open_test_file, h], ?_⟩
  intro r hr
  simp [open_test_file, h] at hr

/-- C4, witness: in the freshly constructed session state (line 66 sets
`reference_detections = None`) the comparison call errors; it does not
return the empty-reference result. -/
theorem no_reference_fails_witness :
    initial_state.reference_detections = none ∧
      open_test_file initial_state testScenario =
        Except.error CompareError.NoReferenceError ∧
      open_test_file initial_state testScenario ≠
        Except.ok (compare_pcbs [] testScenario) :=
  ⟨rfl,
    (no_reference_fails initial_state testScenario rfl).1,
    (no_reference_fails initial_state testScenario rfl).2 _⟩

/-! ### Renderer helper lemmas -/

/-- A drawing step on buffer `annId` leaves every other buffer alone. -/
theorem draw_step_mem_other (annId j : Nat) (hp : Heap) (cmd : DrawCmd)
    (hne : j ≠ annId) : (draw_step annId hp cmd).mem j = hp.mem j := by
  unfold draw_step
  cases hp.mem annId <;> simp [Heap.write, hne]

/-- A whole drawing loop on buffer `annId` leaves every other buffer
alone. -/
theorem foldl_draw_mem_other (annId j : Nat) (hne : j ≠ annId)
    (cmds : List DrawCmd) (hp : Heap) :
    ((cmds.foldl (draw_step annId) hp).mem j) = hp.mem j := by
  induction cmds generalizing hp with
  | nil => rfl
  | cons c rest ih =>
      rw [List.foldl_cons, ih, draw_step_mem_other annId j hp c hne]

/-! ### C7: the base image is never mutated -/

/-- C7: at the buffer level, `compare_pcbs` leaves the test image buffer
bit-for-bit unchanged — it copies the test image into a freshly allocated
buffer (line 82) and draws only there — and returns that fresh buffer, not
the input buffer; when both detection sets are empty no drawing happens
and the returned buffer holds an unannotated copy of the base image. -/
theorem compare_pcbs_preserves_base
    (ref_detections test_detections : List Detection)
    (hp : Heap) (testId : Nat) (img : Image)
    (hmem : hp.mem testId = some img) (hfresh : hp.mem hp.next = none) :
    ((compare_pcbs_buffers ref_detections test_detections testId hp).2).mem
        testId = some img ∧
      (compare_pcbs_buffers ref_detections test_detections testId hp).1 ≠
        testId ∧
      (ref_detections = [] → test_detections = [] →
        ((compare_pcbs_buffers ref_detections test_detections testId hp).2).mem
            (compare_pcbs_buffers ref_detections test_detections testId hp).1 =
          some img.copy) := by
  have hne : testId ≠ hp.next := fun heq => by
    rw [heq, hfresh] at hmem; exact Option.noConfusion hmem
  simp only [compare_pcbs_buffers, hmem, Heap.alloc]
  refine ⟨?_, fun heq => hne heq.symm, ?_⟩
  · rw [foldl_draw_mem_other hp.next testId hne]
    simp [hne, hmem]
  · rintro rfl rfl
    simp [render_cmds, test_cmds, missing_labels, missing_cmds, Heap.alloc]

/-- C7, witness: a concrete one-buffer heap holding `img0`; after the
empty-empty comparison the base buffer still holds `img0`, the result is a
different buffer, and it holds the unannotated copy. -/
theorem compare_pcbs_preserves_base_witness :
    heap0.mem 0 = some img0 ∧ heap0.mem heap0.next = none ∧
      ((compare_pcbs_buffers [] [] 0 heap0).2).mem 0 = some img0 ∧
      (compare_pcbs_buffers [] [] 0 heap0).1 ≠ 0 ∧
      ((compare_pcbs_buffers [] [] 0 heap0).2).mem
          (compare_pcbs_buffers [] [] 0 heap0).1 = some img0.copy :=
  ⟨rfl, rfl,
    (compare_pcbs_preserves_base [] [] heap0 0 img0 rfl rfl).1,
    (compare_pcbs_preserves_base [] [] heap0 0 img0 rfl rfl).2.1,
    (compare_pcbs_preserves_base [] [] heap0 0 img0 rfl rfl).2.2 rfl rfl⟩

/-- Applying one drawing call to pointwise-equal images of equal shape
yields pointwise-equal images. -/
theorem applyCmd_pixEq {a b : Image} (cmd : DrawCmd) (hab : a.pixEq b) :
    (applyCmd a cmd).pixEq (applyCmd b cmd) := by
  obtain ⟨hh, hw, hc, hpix⟩ := hab
  refine ⟨hh, hw, hc, ?_⟩
  intro r c ch
  simp only [applyCmd, hh, hw]
  by_cases hcond : r < b.height ∧ c < b.width ∧ cmd.covers r c = true
  · simp [hcond]
  · simp [hcond, hpix r c ch]

/-- Folding a drawing-call list over pointwise-equal images yields
pointwise-equal images. -/
theorem foldl_applyCmd_pixEq {a b : Image} (cmds : List DrawCmd)
    (hab : a.pixEq b) :
    (cmds.foldl applyCmd a).pixEq (cmds.foldl applyCmd b) := by
  induction cmds generalizing a b with
  | nil => exact hab
  | cons c rest ih => exact ih (applyCmd_pixEq c hab)

/-- Copying preserves pointwise equality. -/
theorem copy_pixEq {a b : Image} (hab : a.pixEq b) : a.copy.pixEq b.copy := by
  obtain ⟨hh, hw, hc, hpix⟩ := hab
  exact ⟨hh, hw, hc, fun r c ch => hpix r c ch⟩

/-! ### C8: renderer determinism -/

/-- C8: rendering is a deterministic function of its inputs — two
invocations on pixel-identical base images with equal detection sets
(hence equal ComparisonResults and equal drawing-call sequences) return
pixel-identical annotated images. -/
theorem render_deterministic (img1 img2 : Image)
    (ref1 ref2 test1 test2 : List Detection)
    (hpix : img1.pixEq img2) (href : ref1 = ref2) (htest : test1 = test2) :
    (render img1 ref1 test1).pixEq (render img2 ref2 test2) := by
  subst href htest
  exact foldl_applyCmd_pixEq _ (copy_pixEq hpix)

/-- C8, witness: `img0` and `img0b` are pixel-identical (their pixel
functions are written differently), and rendering the scenario comparison
on each gives the same value at pixel `(0,0,0)`. -/
theorem render_deterministic_witness :
    img0.pixEq img0b ∧
      (render img0 refScenario testScenario).pix 0 0 0 =
        (render img0b refScenario testScenario).pix 0 0 0 :=
  have h : img0.pixEq img0b := ⟨rfl, rfl, rfl, fun r _ _ => (Nat.mul_zero r).symm⟩
  ⟨h, (render_deterministic img0 img0b refScenario refScenario testScenario
      testScenario h rfl rfl).2.2.2 0 0 0⟩

/-! ### Renderer command-sequence lemmas -/

/-- The per-detection loop issues exactly two drawing calls per test
detection. -/
theorem test_cmds_length (ref_labels : List Label) (ds : List Detection) :
    (test_cmds ref_labels ds).length = 2 * ds.length := by
  induction ds with
  | nil => rfl
  | cons d rest ih =>
      obtain ⟨label, box⟩ := d
      simp only [test_cmds, List.length_cons, ih]
      omega

/-- The missing loop issues exactly one drawing call per missing label. -/
theorem missing_cmds_length (i : Nat) (ms : List Label) :
    (missing_cmds i ms).length = ms.length := by
  induction ms generalizing i with
  | nil => rfl
  | cons l rest ih => simp [missing_cmds, ih]

/-- The `i`-th call of the missing loop started at index `j` is the text
`"Missing: " ++ lbl` of the `i`-th missing label at `(20, 40 + 30*(j+i))`
in red. -/
theorem missing_cmds_getElem (j i : Nat) (ms : List Label) (lbl : Label)
    (hms : ms[i]? = some lbl) :
    (missing_cmds j ms)[i]? =
      some (DrawCmd.text ("Missing: " ++ lbl) 20
        (40 + 30 * ((j + i : Nat) : Int)) 0 (8 / 10 : Rat) (0, 0, 255) 2) := by
  induction ms generalizing j i with
  | nil => simp at hms
  | cons l rest ih =>
      cases i with
      | zero =>
          simp only [List.getElem?_cons_zero, Option.some.injEq] at hms
          subst hms
          simp [missing_cmds]
      | succ k =>
          simp only [List.getElem?_cons_succ] at hms
          have step := ih (j + 1) k hms
          have hnat : j + 1 + k = j + (k + 1) := by omega
          rw [hnat] at step
          simpa [missing_cmds] using step

/-- Dropping the per-detection calls from the full call sequence leaves
exactly the missing-list calls. -/
theorem render_cmds_drop (ref_detections test_detections : List Detection) :
    (render_cmds ref_detections test_detections).drop
        (2 * test_detections.length) =
      missing_cmds 0 (missing_labels (ref_detections.map Prod.fst)
        (test_detections.map Prod.fst)) := by
  unfold render_cmds
  rw [← test_cmds_length (ref_detections.map Prod.fst) test_detections]
  exact List.drop_left _ _

/-! ### C9: one text line per missing entry -/

/-- C9: after the per-detection calls, the renderer issues exactly one
text call per missing label, in missing order: the `i`-th such call draws
`"Missing: " ++ lbl` for the `i`-th missing label, anchored at `x = 20`
near the top-left, at `y = 40 + 30*i` (fixed vertical offset 30 per
entry), in the status-EXTRA colour. -/
theorem missing_lines_rendered (ref_detections test_detections : List Detection)
    (i : Nat) (lbl : Label)
    (hms : (missing_labels (ref_detections.map Prod.fst)
        (test_detections.map Prod.fst))[i]? = some lbl) :
    ((render_cmds ref_detections test_detections).drop
          (2 * test_detections.length)).length =
        (missing_labels (ref_detections.map Prod.fst)
          (test_detections.map Prod.fst)).length ∧
      ((render_cmds ref_detections test_detections).drop
          (2 * test_detections.length))[i]? =
        some (DrawCmd.text ("Missing: " ++ lbl) 20 (40 + 30 * (i : Int)) 0
          (8 / 10 : Rat) extra_color 2) := by
  rw [render_cmds_drop]
  refine ⟨missing_cmds_length _ _, ?_⟩
  simpa using missing_cmds_getElem 0 i _ lbl hms

/-- C9, witness: in the scenario the second missing line (index 1, the
duplicate `C1`) is drawn at `(20, 70)` in red with the `Missing:` tag. -/
theorem missing_lines_rendered_witness :
    ((missing_labels (refScenario.map Prod.fst)
        (testScenario.map Prod.fst))[1]? = some "C1") ∧
      ((render_cmds refScenario testScenario).drop
          (2 * testScenario.length))[1]? =
        some (DrawCmd.text ("Missing: " ++ "C1") 20 (40 + 30 * (1 : Int)) 0
          (8 / 10 : Rat) extra_color 2) :=
  ⟨by decide,
    (missing_lines_rendered refScenario testScenario 1 "C1" (by decide)).2⟩

/-! ### C10: the annotated image keeps the base image's shape -/

/-- Folding drawing calls never changes the buffer shape. -/
theorem foldl_applyCmd_shape (cmds : List DrawCmd) (img : Image) :
    (cmds.foldl applyCmd img).height = img.height ∧
      (cmds.foldl applyCmd img).width = img.width ∧
      (cmds.foldl applyCmd img).channels = img.channels := by
  induction cmds generalizing img with
  | nil => exact ⟨rfl, rfl, rfl⟩
  | cons c rest ih => simpa [applyCmd] using ih (applyCmd img c)

/-- C10: the annotated image returned by the comparison-and-render
operation has exactly the height, width and channel count of the input
test image — all drawing happens in place on a copy of it. -/
theorem render_preserves_shape (img : Image)
    (ref_detections test_detections : List Detection) :
    (render img ref_detections test_detections).height = img.height ∧
      (render img ref_detections test_detections).width = img.width ∧
      (render img ref_detections test_detections).channels = img.channels := by
  unfold render
  simpa [Image.copy] using
    foldl_applyCmd_shape (render_cmds ref_detections test_detections) img.copy

end PCB
